import Mathlib

/-!
Shallow embedding of the DAB receiver core of the OFDM_demodulator sources.

Each definition is translated from the corresponding C++ source under `src/`:

* `FIC_Processor` (fic_processor.h and its implementation): CRC-16 FIB
  validation inside `ProcessFIBGroup`, the `ProcessFIG` scanning loop, and the
  FIG type 0 extension field parsers.
* `Basic_DAB_Plus_Controls` and the error-flag callbacks attached in
  `Basic_DAB_Plus_Channel::SetupCallbacks`.
* `DAB_Viterbi_Decoder::update` (depuncturing loop).
* `MOT_Assembler`: only the class declaration is among the sources, so its
  operations are modelled from the spec; the definitions concerned say so in
  their doc string.

Bytes are modelled as `Nat` values below 256; masks and shifts follow the C++
text, and 8/16-bit truncation is written out explicitly where it matters.
-/

namespace DabEmbed

/-- One MSB-first shift step of the CRC-16 remainder for polynomial 0x1021,
as computed through the CRCpp table built in `FIC_Processor::FIC_Processor`
(parameters: polynomial 0x1021, initial value 0xFFFF, final XOR 0x0000, no
input or output reflection).  The remainder is kept in 16 bits. -/
def crc16_step (crc : Nat) : Nat :=
  if crc &&& 0x8000 ≠ 0 then ((crc <<< 1) ^^^ 0x1021) &&& 0xFFFF
  else (crc <<< 1) &&& 0xFFFF

/-- Feed one data byte into the running CRC-16 remainder (MSB-first). -/
def crc16_feed (crc b : Nat) : Nat :=
  crc16_step^[8] (crc ^^^ ((b &&& 0xFF) <<< 8))

/-- CRC::Calculate over a byte buffer with the crc16 table of
`FIC_Processor` (poly 0x1021, init 0xFFFF, final XOR 0x0000, unreflected). -/
def CRC_Calculate (bytes : List Nat) : Nat := bytes.foldl crc16_feed 0xFFFF

/-- FIG_Header_Type_0 of fic_processor.h. -/
structure FIG_Header_Type_0 where
  cn : Nat
  oe : Nat
  pd : Nat
deriving DecidableEq, Repr

/-- Observable effect of scanning one FIG inside a FIB: which handler of
`FIC_Processor` was dispatched, with the bytes it received.  The handlers in
the source only format log messages, so the dispatch record is the entire
observable behaviour of FIG parsing. -/
inductive FigEvent where
  | fig0 (header : FIG_Header_Type_0) (ext : Nat) (field : List Nat)
  | fig1 (payload : List Nat)
  | fig2 (payload : List Nat)
  | fig6 (payload : List Nat)
deriving DecidableEq, Repr

/-- Extensions with a named case in the switch of
`FIC_Processor::ProcessFIG_Type_0`; every other extension falls through the
`default:` branch silently. -/
def fig0_recognized_exts : List Nat := [1, 14, 2, 3, 4, 8, 13, 0, 7, 6, 10, 9, 17, 21, 24]

/-- Whether `ProcessFIG_Type_0` dispatches a sub-handler for this extension. -/
def fig0_recognized (ext : Nat) : Bool := fig0_recognized_exts.contains ext

/-- FIC_Processor::ProcessFIG_Type_0.  `buf` is the byte sequence starting at
the C++ pointer `fig_buf` (so it may extend past the FIG's own data bytes,
exactly as the pointer does), `n` is the `fig_data_length_bytes` argument.
The descriptor byte is split into the type 0 header and the extension; a
recognized extension dispatches its handler with `nb_field_bytes = N - 1`
bytes (computed in `uint8_t`, hence the wrap-around for `n = 0`), an
unrecognized one produces nothing. -/
def ProcessFIG_Type_0 (buf : List Nat) (n : Nat) : Option FigEvent :=
  let descriptor := buf.headD 0
  let header : FIG_Header_Type_0 :=
    { cn := (descriptor &&& 0b10000000) >>> 7
      oe := (descriptor &&& 0b01000000) >>> 6
      pd := (descriptor &&& 0b00100000) >>> 5 }
  let ext := descriptor &&& 0b00011111
  let nbField := (n + 255) % 256
  if fig0_recognized ext then some (.fig0 header ext ((buf.drop 1).take nbField))
  else none

/-- FIC_Processor::ProcessFIG scanning loop, written on the not yet consumed
suffix of the 32-byte FIB buffer (30 data bytes followed by the two CRC
bytes).  The loop condition `curr_byte < N` with `N = 30` becomes
`2 < remaining.length`.  A 0xFF delimiter, a FIG length overflowing the
remaining bytes, the end marker type 7 and the reserved types 3, 4, 5 all
stop the scan; types 0, 1, 2 and 6 dispatch their handler and continue after
`fig_length_bytes = fig_data_length_bytes + 1` consumed bytes. -/
def processFIGAux (remaining : List Nat) : List FigEvent :=
  if _h2 : remaining.length ≤ 2 then []
  else
    let header := remaining.headD 0
    if header = 0xFF then []
    else
      let figDataLen := header &&& 0b00011111
      let figType := (header &&& 0b11100000) >>> 5
      if figDataLen + 1 > remaining.length - 2 then []
      else
        let figBuf := remaining.drop 1
        let next := remaining.drop (figDataLen + 1)
        if figType = 0 then
          match ProcessFIG_Type_0 figBuf figDataLen with
          | some e => e :: processFIGAux next
          | none => processFIGAux next
        else if figType = 1 then .fig1 (figBuf.take figDataLen) :: processFIGAux next
        else if figType = 2 then .fig2 (figBuf.take figDataLen) :: processFIGAux next
        else if figType = 6 then .fig6 (figBuf.take figDataLen) :: processFIGAux next
        else []
termination_by remaining.length
decreasing_by
  all_goals simp only [List.length_drop]
  all_goals omega

/-- FIC_Processor::ProcessFIG applied to one 32-byte FIB buffer. -/
def processFIG (fib : List Nat) : List FigEvent := processFIGAux fib

/-- Received CRC word of a FIB: the last two bytes, big-endian, inverted at
transmission (`crc16_rx ^= 0xFFFF` in `ProcessFIBGroup`). -/
def fib_crc_rx (fib : List Nat) : Nat :=
  (((fib.getD 30 0) <<< 8) ||| fib.getD 31 0) ^^^ 0xFFFF

/-- Predicted CRC of a FIB: CRC::Calculate over its first 30 bytes. -/
def fib_crc_pred (fib : List Nat) : Nat := CRC_Calculate (fib.take 30)

/-- The `is_valid` check of one iteration of the crc16 loop in
`FIC_Processor::ProcessFIBGroup`. -/
def fib_is_valid (fib : List Nat) : Bool := fib_crc_rx fib == fib_crc_pred fib

/-- One iteration of the crc16 loop of `FIC_Processor::ProcessFIBGroup` for a
single 32-byte FIB: a valid FIB is handed to `ProcessFIG`, an invalid one is
dropped before any FIG parsing. -/
def checkAndProcessFIB (fib : List Nat) : Option (List FigEvent) :=
  if fib_is_valid fib then some (processFIG fib) else none

/-- EnsembleIdentifier::ProcessBuffer of the FIC implementation file. -/
structure EnsembleIdentifier where
  country_id : Nat
  ensemble_reference : Nat
deriving DecidableEq, Repr

/-- EnsembleIdentifier::ProcessBuffer on the two identifier bytes. -/
def EnsembleIdentifier.ProcessBuffer (b0 b1 : Nat) : EnsembleIdentifier :=
  { country_id := (b0 &&& 0b11110000) >>> 4
    ensemble_reference := ((b0 &&& 0b00001111) <<< 8) ||| (b1 &&& 0b11111111) }

/-- Fields extracted by FIC_Processor::ProcessFIG_Type_0_Ext_0. -/
structure Fig0Ext0 where
  eid : EnsembleIdentifier
  change_flags : Nat
  alarm_flag : Nat
  cif_upper : Nat
  cif_lower : Nat
  occurance_change : Nat
deriving DecidableEq, Repr

/-- FIC_Processor::ProcessFIG_Type_0_Ext_0 on its field bytes.  The source
rejects every field whose length differs from `nb_field_bytes = 4`
(`if (N != nb_field_bytes) ... return;`), and never reads an
occurrence-change byte: the parse of `buf[4]` is commented out and the value
is hard-coded to 0x00. -/
def ProcessFIG_Type_0_Ext_0 (field : List Nat) : Option Fig0Ext0 :=
  if field.length ≠ 4 then none
  else
    some { eid := EnsembleIdentifier.ProcessBuffer (field.getD 0 0) (field.getD 1 0)
           change_flags := (field.getD 2 0 &&& 0b11000000) >>> 6
           alarm_flag := (field.getD 2 0 &&& 0b00100000) >>> 5
           cif_upper := field.getD 2 0 &&& 0b00011111
           cif_lower := field.getD 3 0 &&& 0b11111111
           occurance_change := 0x00 }

/-- Fields extracted by FIC_Processor::ProcessFIG_Type_0_Ext_10. -/
structure Fig0Ext10 where
  rfu0 : Nat
  MJD : Nat
  LSI : Nat
  Rfa0 : Nat
  UTC : Nat
  hours : Nat
  minutes : Nat
  seconds : Nat
  milliseconds : Nat
deriving DecidableEq, Repr

/-- UTC flag of FIG 0/10: bit 3 of the third field byte. -/
def fig010_utc_flag (b2 : Nat) : Nat := (b2 &&& 0b00001000) >>> 3

/-- FIC_Processor::ProcessFIG_Type_0_Ext_10 on its field bytes.  Mirrors the
source exactly, including the `(buf[2] & 0b11000000) >> 0` term of the MJD
(the source shifts by 0, not by 6) and the long-form length check
`nb_actual_bytes = UTC ? 6 : 4` that rejects short fields. -/
def ProcessFIG_Type_0_Ext_10 (field : List Nat) : Option Fig0Ext10 :=
  if 4 > field.length then none
  else
    let b0 := field.getD 0 0
    let b1 := field.getD 1 0
    let b2 := field.getD 2 0
    let b3 := field.getD 3 0
    let utc := fig010_utc_flag b2
    if (if utc ≠ 0 then 6 else 4) > field.length then none
    else
      some { rfu0 := (b0 &&& 0b10000000) >>> 7
             MJD := ((b0 &&& 0b01111111) <<< 10) ||| ((b1 &&& 0b11111111) <<< 2) |||
                    ((b2 &&& 0b11000000) >>> 0)
             LSI := (b2 &&& 0b00100000) >>> 5
             Rfa0 := (b2 &&& 0b00010000) >>> 4
             UTC := utc
             hours := ((b2 &&& 0b00000111) <<< 2) ||| ((b3 &&& 0b11000000) >>> 6)
             minutes := b3 &&& 0b00111111
             seconds := if utc ≠ 0 then (field.getD 4 0 &&& 0b11111100) >>> 2 else 0
             milliseconds :=
               if utc ≠ 0 then ((field.getD 4 0 &&& 0b00000011) <<< 8) ||| (field.getD 5 0 &&& 0b11111111)
               else 0 }

/-- Control flag constants of basic_dab_plus_channel. -/
def CONTROL_FLAG_DECODE_AUDIO : Nat := 0b10000000

/-- Control flag for decoding the AAC data_stream_element. -/
def CONTROL_FLAG_DECODE_DATA : Nat := 0b01000000

/-- Control flag for playing audio through the sound device. -/
def CONTROL_FLAG_PLAY_AUDIO : Nat := 0b00100000

/-- Basic_DAB_Plus_Controls::SetFlag on the `uint8_t flags` word:
`flags |= flag` when setting, `flags &= ~flag` (8-bit complement) when
clearing. -/
def SetFlag (flags flag : Nat) (state : Bool) : Nat :=
  if state then flags ||| flag else flags &&& (0xFF ^^^ flag)

/-- Basic_DAB_Plus_Controls::SetIsDecodeAudio: clearing decode_audio also
clears play_audio. -/
def SetIsDecodeAudio (flags : Nat) (v : Bool) : Nat :=
  let f := SetFlag flags CONTROL_FLAG_DECODE_AUDIO v
  if v then f else SetFlag f CONTROL_FLAG_PLAY_AUDIO false

/-- Basic_DAB_Plus_Controls::SetIsPlayAudio: setting play_audio also sets
decode_audio. -/
def SetIsPlayAudio (flags : Nat) (v : Bool) : Nat :=
  let f := SetFlag flags CONTROL_FLAG_PLAY_AUDIO v
  if v then SetFlag f CONTROL_FLAG_DECODE_AUDIO true else f

/-- Basic_DAB_Plus_Controls::GetIsDecodeAudio. -/
def GetIsDecodeAudio (flags : Nat) : Bool := (flags &&& CONTROL_FLAG_DECODE_AUDIO) != 0

/-- Basic_DAB_Plus_Controls::GetIsPlayAudio. -/
def GetIsPlayAudio (flags : Nat) : Bool := (flags &&& CONTROL_FLAG_PLAY_AUDIO) != 0

/-- Events observed by the callbacks attached in
`Basic_DAB_Plus_Channel::SetupCallbacks` that touch the error flags. -/
inductive ChannelEvent where
  | superFrameHeader
  | accessUnit (au_index : Nat)
  | firecodeError
  | rsError
  | auCrcError
deriving DecidableEq, Repr

/-- Error flags of Basic_DAB_Plus_Channel. -/
structure ChannelErrorFlags where
  is_firecode_error : Bool
  is_rs_error : Bool
  is_au_error : Bool
deriving DecidableEq, Repr

/-- Effect of one AAC frame processor event on the error flags, following the
callbacks of `Basic_DAB_Plus_Channel::SetupCallbacks`: `OnSuperFrameHeader`
clears the firecode and RS flags, `OnFirecodeError` / `OnRSError` /
`OnAccessUnitCRCError` set their flag, and `OnAccessUnit` with
`au_index == 0` clears the AU error flag. -/
def channelStep (s : ChannelErrorFlags) : ChannelEvent → ChannelErrorFlags
  | .superFrameHeader => { s with is_firecode_error := false, is_rs_error := false }
  | .accessUnit i => if i = 0 then { s with is_au_error := false } else s
  | .firecodeError => { s with is_firecode_error := true }
  | .rsError => { s with is_rs_error := true }
  | .auCrcError => { s with is_au_error := true }

/-- Modelled from the spec: the implementation of `MOT_Assembler` is not among
the sources (only the class declaration in part_001), so the assembler state
is modelled from spec section 4.6: `SetTotalSegments(N)` fixes the expected
count, `AddSegment(index, data)` stores the segment bytes under its index,
`CheckComplete()` is true when all indices in `[0, N)` have been received and
`GetData()` concatenates the segments in index order. -/
structure MOT_Assembler where
  total_segments : Nat
  segments : Nat → Option (List Nat)

/-- Modelled from the spec: a freshly reset assembler holds no segments. -/
def MOT_Assembler.reset : MOT_Assembler :=
  { total_segments := 0, segments := fun _ => none }

/-- Modelled from the spec: SetTotalSegments. -/
def MOT_Assembler.SetTotalSegments (m : MOT_Assembler) (n : Nat) : MOT_Assembler :=
  { m with total_segments := n }

/-- Modelled from the spec: AddSegment stores the bytes under the index. -/
def MOT_Assembler.AddSegment (m : MOT_Assembler) (index : Nat) (data : List Nat) : MOT_Assembler :=
  { m with segments := fun i => if i = index then some data else m.segments i }

/-- Modelled from the spec: CheckComplete is true when all of the
`total_segments` indices have been received. -/
def MOT_Assembler.CheckComplete (m : MOT_Assembler) : Bool :=
  decide (∀ i < m.total_segments, (m.segments i).isSome = true)

/-- Modelled from the spec: GetData reconstructs the ordered buffer by copying
segments in index order. -/
def MOT_Assembler.GetData (m : MOT_Assembler) : List Nat :=
  (List.range m.total_segments).foldr (fun i acc => (m.segments i).getD [] ++ acc) []

/-- Fold a sequence of AddSegment calls, fetching each segment's bytes from
the assignment `f`. -/
def MOT_addAll (f : Nat → List Nat) (idxs : List Nat) (m : MOT_Assembler) : MOT_Assembler :=
  idxs.foldl (fun m i => m.AddSegment i (f i)) m

/-- Modelled from the spec: the numeric value of
`SOFT_DECISION_VITERBI_PUNCTURED` is defined outside the provided sources;
spec section 4.1 describes it as the neutral symbol midway between `SOFT_LOW`
and `SOFT_HIGH`. -/
def soft_decision_unpunctured (softLow softHigh : Int) : Int := (softLow + softHigh) / 2

/-- Cyclic read of the puncture code, as done by
`index_puncture_code = (index_puncture_code + 1) % puncture_code.size()`. -/
def pcAt (pc : List Bool) (i : Nat) : Bool := pc.getD (i % pc.length) false

/-- Number of positions with puncture flag 1 among the `k` cyclic puncture
code positions starting at `start`: the count of transmitted (consumed)
symbols over that window. -/
def countTransmitted (pc : List Bool) : Nat → Nat → Nat
  | _, 0 => 0
  | start, k + 1 => (if pcAt pc start then 1 else 0) + countTransmitted pc (start + 1) k

/-- Depuncturing loop of `DAB_Viterbi_Decoder::update`: for each of the `k`
requested output symbols, either consume the next punctured input symbol
(puncture flag 1) or insert the neutral symbol (flag 0).  Running out of
input symbols hits the failsafe path of the source (`return 0` without
running the decoder), modelled by `none`. -/
def depunctureLoop (pc : List Bool) (neutral : Int) :
    List Int → Nat → Nat → Option (List Int × Nat)
  | _, 0, _ => some ([], 0)
  | syms, k + 1, i =>
    if pcAt pc i then
      match syms with
      | [] => none
      | v :: rest =>
        (depunctureLoop pc neutral rest k (i + 1)).map (fun p => (v :: p.fst, p.snd + 1))
    else
      (depunctureLoop pc neutral syms k (i + 1)).map (fun p => (neutral :: p.fst, p.snd))

/-- DAB_Viterbi_Decoder::update: produce `requested` depunctured symbols from
`punctured_symbols` and the cyclic `puncture_code`, and report how many input
soft bits were consumed.  `neutral` is the `soft_decision_unpunctured`
constant of the source file. -/
def DAB_Viterbi_Decoder_update (punctured_symbols : List Int) (puncture_code : List Bool)
    (requested : Nat) (neutral : Int) : Option (List Int × Nat) :=
  depunctureLoop puncture_code neutral punctured_symbols requested 0

/-- Convolutional code polynomials of the source
(`code_polynomial[R] = {109, 79, 83, 109}`, the reversed-binary form of the
ETSI octal generators 133, 171, 145, 133). -/
def code_polynomial : List Nat := [109, 79, 83, 109]

/-- Parity (mod 2 popcount) of the low 8 bits, enough for the 7-bit encoder
register of the K = 7 code. -/
def natParity (x : Nat) : Nat :=
  ((List.range 8).foldl (fun a i => a + ((x >>> i) &&& 1)) 0) % 2

/-- Modelled from the spec: expected transmitted symbols of the transition
that shifts input bit `inBit` into state `prev` of the K = 7 trellis. -/
def transition_symbols (prev inBit : Nat) : List Nat :=
  code_polynomial.map (fun g => natParity (g &&& (((prev <<< 1) ||| inBit) &&& 0x7F)))

/-- Modelled from the spec: soft value expected for a hard symbol, with the
mapping 0 to SOFT_HIGH and 1 to SOFT_LOW used throughout the project. -/
def branch_value (softLow softHigh : Int) (bit : Nat) : Int :=
  if bit = 1 then softLow else softHigh

/-- Modelled from the spec: accumulated branch metric of one trellis
transition against the received group of R soft symbols. -/
def branch_metric (softLow softHigh : Int) (syms : List Int) (prev inBit : Nat) : Nat :=
  ((transition_symbols prev inBit).zip syms).foldl
    (fun acc p => acc + (branch_value softLow softHigh p.fst - p.snd).natAbs) 0

/-- Path metrics and decision history of the 64-state Viterbi core. -/
structure ViterbiCoreState where
  metrics : List Nat
  decisions : List (List Bool)
deriving DecidableEq, Repr

/-- Modelled from the spec: reset of the Viterbi core, giving the starting
state the minimal metric. -/
def viterbi_init (start : Nat) : ViterbiCoreState :=
  { metrics := (List.range 64).map (fun s => if s = start then 0 else 65535)
    decisions := [] }

/-- Modelled from the spec: one add-compare-select step of the branch-metric
Viterbi update over a group of R soft symbols.  The ISA kernels of the
source (scalar, SSE4.2, AVX2, NEON) are required by the spec to compute this
identical numeric update. -/
def acs_step (softLow softHigh : Int) (syms : List Int) (m : ViterbiCoreState) : ViterbiCoreState :=
  let err := fun n =>
    let p0 := n >>> 1
    let p1 := (n >>> 1) + 32
    let b := n &&& 1
    (m.metrics.getD p0 0 + branch_metric softLow softHigh syms p0 b,
     m.metrics.getD p1 0 + branch_metric softLow softHigh syms p1 b)
  { metrics := (List.range 64).map (fun n => min (err n).fst (err n).snd)
    decisions := m.decisions ++ [(List.range 64).map (fun n => decide ((err n).snd < (err n).fst))] }

/-- Walk the decision history backwards from `endState`, returning the
decoded bits newest first. -/
def chainbackAux : List (List Bool) → Nat → List Nat
  | [], _ => []
  | d :: ds, s =>
    (s &&& 1) :: chainbackAux ds (if d.getD s false then (s >>> 1) + 32 else s >>> 1)

/-- ISA kernel selected at compile time for `DAB_Viterbi_Decoder`
(`ExternalDecoder` in the source: ViterbiDecoder_Scalar,
ViterbiDecoder_SSE_u16, ViterbiDecoder_AVX_u16 or ViterbiDecoder_NEON_u16). -/
inductive ViterbiKernel where
  | scalar
  | sse4_2
  | avx2
  | neon
deriving DecidableEq, Repr

/-- Modelled from the spec: the four kernel sources are not among the provided
files; spec sections 4.1 and 8 require every kernel to produce identical
numeric outputs, so each one is modelled by the same core update. -/
def kernel_acs_step : ViterbiKernel → Int → Int → List Int → ViterbiCoreState → ViterbiCoreState
  | .scalar => acs_step
  | .sse4_2 => acs_step
  | .avx2 => acs_step
  | .neon => acs_step

/-- DAB_Viterbi_Decoder::chainback on the selected kernel: run the kernel's
update over every group of R depunctured symbols from the reset state, then
chain back from `endState`.  Returns the decoded hard bits (oldest first) and
the accumulated path error of the end state. -/
def kernel_chainback (k : ViterbiKernel) (softLow softHigh : Int)
    (groups : List (List Int)) (endState : Nat) : List Nat × Nat :=
  let st := groups.foldl (fun s g => kernel_acs_step k softLow softHigh g s) (viterbi_init 0)
  ((chainbackAux st.decisions.reverse endState).reverse, st.metrics.getD endState 0)

/-- Identifier of one of the puncture tables handed to the decoder by
`FIC_Processor::ProcessFIBGroup` (the tables live in puncture_codes.h, which
is not among the provided sources; only their identity matters here). -/
inductive PunctureTableId where
  | PI_15
  | PI_16
  | PI_X
deriving DecidableEq, Repr

/-- Result record of ViterbiDecoder::Decode
(`res.nb_encoded_bits`, `res.nb_puncture_bits`, `res.nb_decoded_bits`),
together with the decoded bits the call writes into the output buffer. -/
structure DecodeResult where
  nb_encoded_bits : Nat
  nb_puncture_bits : Nat
  nb_decoded_bits : Nat
  bits : List Bool
deriving Repr

/-- Interface of the Viterbi decoder object used by `ProcessFIBGroup`
(viterbi_decoder.h is not among the provided sources, so the decoder is kept
abstract): `reset` models `vitdec->Reset()` and `decode` models
`vitdec->Decode(input, table, table_length, requested, is_flush)` returning
the updated decoder state and the decode result. -/
structure ViterbiOracle (σ : Type) where
  reset : σ → σ
  decode : σ → List Bool → PunctureTableId → Nat → Nat → Bool → σ × DecodeResult

/-- Arguments of one `vitdec->Decode` call. -/
structure DecodeCall where
  table : PunctureTableId
  table_length : Nat
  requested : Nat
  is_flush : Bool
deriving DecidableEq, Repr

/-- Modelled from the spec: AdditiveScrambler seed.  additive_scrambler.h is
not among the provided sources; spec section 4.1 describes a 9-bit LFSR
seeded to the syncword 0xFFFF set in `FIC_Processor::FIC_Processor`. -/
def scrambler_seed : Nat := 0xFFFF &&& 0x1FF

/-- Modelled from the spec: one LFSR bit of the additive scrambler, with the
standard DAB energy-dispersal taps (polynomial x^9 + x^5 + 1). -/
def scrambler_bit (reg : Nat) : Nat × Nat :=
  let out := ((reg >>> 8) ^^^ (reg >>> 4)) &&& 1
  (out, ((reg <<< 1) ||| out) &&& 0x1FF)

/-- Modelled from the spec: one byte of the scrambler sequence
(`scrambler->Process()`), MSB first. -/
def scrambler_byte (reg : Nat) : Nat × Nat :=
  (List.range 8).foldl (fun p _ => ((scrambler_bit p.snd).fst + p.fst * 2, (scrambler_bit p.snd).snd))
    (0, reg)

/-- Modelled from the spec: the byte stream produced by repeated
`scrambler->Process()` calls after `scrambler->Reset()`. -/
def scrambler_stream : Nat → Nat → List Nat
  | 0, _ => []
  | n + 1, reg => (scrambler_byte reg).fst :: scrambler_stream n (scrambler_byte reg).snd

/-- Bit unpacking of `ProcessFIBGroup`: bit j of byte i goes to position
`8 * i + j` (LSB first). -/
def byte_to_bits_lsb (b : Nat) : List Bool :=
  (List.range 8).map (fun j => ((b >>> j) &&& 1) == 1)

/-- Unpack a byte buffer into its LSB-first bit sequence. -/
def unpack_bits (bytes : List Nat) : List Bool :=
  bytes.foldr (fun b acc => byte_to_bits_lsb b ++ acc) []

/-- Byte packing of `ProcessFIBGroup`: bit `8 * i + j` lands at bit position
`7 - j` of byte i (`b |= decoded_bits[8 * i + j] << (7 - j)`). -/
def pack_byte_msb (bits : List Bool) : Nat :=
  bits.foldl (fun acc b => acc * 2 + (if b then 1 else 0)) 0

/-- Pack the first `8 * nbytes` bits into `nbytes` bytes, MSB first. -/
def pack_bytes_msb (nbytes : Nat) (bits : List Bool) : List Nat :=
  (List.range nbytes).map (fun i => pack_byte_msb ((bits.drop (8 * i)).take 8))

/-- Write `src` into the buffer `dst` starting at offset `off`, the list
analogue of the source's writes into the static `decoded_bits` array. -/
def overwriteAt (dst : List Bool) (off : Nat) (src : List Bool) : List Bool :=
  dst.take off ++ src ++ dst.drop (off + src.length)

/-- Observable outcome of `FIC_Processor::ProcessFIBGroup`: the decoder calls
made, the descrambled byte buffer, and the per-FIB outcome of the crc16
check (`none` when the FIB was dropped, otherwise the FIG events). -/
structure FIBGroupResult where
  calls : List DecodeCall
  decoded_bytes : List Nat
  fib_results : List (Option (List FigEvent))
deriving Repr

/-- FIC_Processor::ProcessFIBGroup over a 288-byte encoded FIB group,
following the source statement order: unpack bits, `vitdec->Reset()`, three
`vitdec->Decode` calls (PI_16 for 21 x 128 requested symbols, PI_15 for
3 x 128, PI_X for 24 with the flush flag), write the decoded bits into the
(static) bit buffer at the running `curr_decoded_bit` offsets, pack the 768
bits into 96 bytes, XOR with the scrambler sequence, split into three
32-byte FIBs and run the crc16 check on each.  `stale` is the prior content
of the static decoded-bits buffer. -/
def ProcessFIBGroup {σ : Type} (O : ViterbiOracle σ) (s0 : σ) (stale : List Bool)
    (encoded_bytes : List Nat) : FIBGroupResult :=
  let encoded_bits := unpack_bits (encoded_bytes.take 288)
  let pr1 := O.decode (O.reset s0) encoded_bits .PI_16 32 (128 * 21) false
  let r1 := pr1.snd
  let pr2 := O.decode pr1.fst (encoded_bits.drop r1.nb_encoded_bits) .PI_15 32 (128 * 3) false
  let r2 := pr2.snd
  let pr3 := O.decode pr2.fst (encoded_bits.drop (r1.nb_encoded_bits + r2.nb_encoded_bits))
    .PI_X 24 24 true
  let r3 := pr3.snd
  let decoded_bits :=
    overwriteAt
      (overwriteAt (overwriteAt (stale.take 768) 0 r1.bits) r1.nb_decoded_bits r2.bits)
      (r1.nb_decoded_bits + r2.nb_decoded_bits) r3.bits
  let descrambled :=
    List.zipWith (fun a b => a ^^^ b) (pack_bytes_msb 96 decoded_bits)
      (scrambler_stream 96 scrambler_seed)
  { calls := [⟨.PI_16, 32, 128 * 21, false⟩, ⟨.PI_15, 32, 128 * 3, false⟩, ⟨.PI_X, 24, 24, true⟩]
    decoded_bytes := descrambled
    fib_results := (List.range 3).map (fun i => checkAndProcessFIB ((descrambled.drop (32 * i)).take 32)) }

/-- Run a plan of decoder calls in sequence, dropping the consumed encoded
bits between calls, and collect the results in order. -/
def run_decode_plan {σ : Type} (O : ViterbiOracle σ) :
    List DecodeCall → σ → List Bool → σ × List DecodeResult
  | [], s, _ => (s, [])
  | c :: cs, s, input =>
    let pr := O.decode s input c.table c.table_length c.requested c.is_flush
    let rest := run_decode_plan O cs pr.fst (input.drop pr.snd.nb_encoded_bits)
    (rest.fst, pr.snd :: rest.snd)

/-- The three decoder calls named by the claim: PI_16 for 21 x 128 output
symbols, then PI_15 for 3 x 128, then PI_X for 24 with termination. -/
def fic_claim_plan : List DecodeCall :=
  [⟨.PI_16, 32, 21 * 128, false⟩, ⟨.PI_15, 32, 3 * 128, false⟩, ⟨.PI_X, 24, 24, true⟩]

/-- FIC decoding as the claim words it: run the three update calls of
`fic_claim_plan` in order, concatenate the decoded bits they produce (the
rest of the bit buffer keeps its stale content), XOR the packed bytes with
the additive scrambler sequence seeded by the syncword, split into three
32-byte FIBs and CRC-16 validate each, feeding valid FIBs to the FIG
parser. -/
def fic_decode_claim {σ : Type} (O : ViterbiOracle σ) (s0 : σ) (stale : List Bool)
    (encoded_bytes : List Nat) : FIBGroupResult :=
  let bits := unpack_bits (encoded_bytes.take 288)
  let run := run_decode_plan O fic_claim_plan (O.reset s0) bits
  let dec := (run.snd.map DecodeResult.bits).flatten
  let buffer := dec ++ (stale.take 768).drop dec.length
  let descrambled :=
    List.zipWith (fun a b => a ^^^ b) (pack_bytes_msb 96 buffer)
      (scrambler_stream 96 scrambler_seed)
  { calls := fic_claim_plan
    decoded_bytes := descrambled
    fib_results := (List.range 3).map (fun i => checkAndProcessFIB ((descrambled.drop (32 * i)).take 32)) }

/-- Length discipline of the decoder: every `Decode` call writes exactly
`nb_decoded_bits` bits into the output buffer. -/
def OracleLengthWF {σ : Type} (O : ViterbiOracle σ) : Prop :=
  ∀ s input t tl req fl,
    ((O.decode s input t tl req fl).snd).bits.length = ((O.decode s input t tl req fl).snd).nb_decoded_bits

/-- Concrete stateless decoder used to exercise the pipeline: every call
consumes its requested symbols, reports one decoded bit per code-rate group
of 4 output symbols, and writes that many zero bits. -/
def null_oracle : ViterbiOracle Unit :=
  { reset := fun _ => ()
    decode := fun _ _ _ _ req _ =>
      ((), { nb_encoded_bits := req
             nb_puncture_bits := req
             nb_decoded_bits := req / 4
             bits := List.replicate (req / 4) false }) }

end DabEmbed

namespace DabEmbed

set_option maxRecDepth 8192 in
/-- C2: for every 8-bit control flags state, SetIsPlayAudio(true) leaves
GetIsDecodeAudio() true and SetIsDecodeAudio(false) leaves GetIsPlayAudio()
false; and starting from flags = 0, SetIsPlayAudio(true) followed by
SetIsDecodeAudio(false) returns the flags word to exactly 0. -/
theorem claim_C2_controls : ∀ flags < 256,
    GetIsDecodeAudio (SetIsPlayAudio flags true) = true ∧
    GetIsPlayAudio (SetIsDecodeAudio flags false) = false ∧
    SetIsDecodeAudio (SetIsPlayAudio 0 true) false = 0 := by decide

/-- Witness for C2 at the concrete flags state 0b01000000. -/
theorem claim_C2_controls_witness :
    GetIsDecodeAudio (SetIsPlayAudio 0b01000000 true) = true ∧
    GetIsPlayAudio (SetIsDecodeAudio 0b01000000 false) = false ∧
    SetIsDecodeAudio (SetIsPlayAudio 0 true) false = 0 :=
  claim_C2_controls 0b01000000 (by decide)

/-- C5 counterexample: the FIG 0/0 field parser rejects a 5-byte field (the
source returns before parsing whenever `N != 4`), so a 5-byte field is not
accepted and no ensemble information is produced from it. -/
theorem claim_C5_counterexample :
    ProcessFIG_Type_0_Ext_0 [0x00, 0xC0, 0x12, 0x34, 0x05] = none := by decide

/-- C5 amended: the FIG 0/0 field parser accepts exactly the 4-byte fields;
for those the four bytes are parsed into ensemble identifier, change flags,
alarm flag and CIF counters, and the occurrence-change byte is never parsed
(it is reported as 0x00 regardless of the field length). -/
theorem claim_C5_amended (field : List Nat) :
    ((ProcessFIG_Type_0_Ext_0 field).isSome = true ↔ field.length = 4) ∧
    (∀ r, ProcessFIG_Type_0_Ext_0 field = some r → r.occurance_change = 0) ∧
    (field.length = 4 →
      ProcessFIG_Type_0_Ext_0 field =
        some { eid := EnsembleIdentifier.ProcessBuffer (field.getD 0 0) (field.getD 1 0)
               change_flags := (field.getD 2 0 &&& 0b11000000) >>> 6
               alarm_flag := (field.getD 2 0 &&& 0b00100000) >>> 5
               cif_upper := field.getD 2 0 &&& 0b00011111
               cif_lower := field.getD 3 0 &&& 0b11111111
               occurance_change := 0 }) := by
  refine ⟨?_, ?_, ?_⟩
  · unfold ProcessFIG_Type_0_Ext_0
    by_cases h : field.length = 4 <;> simp [h]
  · intro r hr
    unfold ProcessFIG_Type_0_Ext_0 at hr
    by_cases h : field.length = 4
    · simp [h] at hr
      simp [← hr]
    · simp [h] at hr
  · intro h
    unfold ProcessFIG_Type_0_Ext_0
    simp [h]

/-- Witness for C5 amended at the 4-byte field of the spec scenario. -/
theorem claim_C5_amended_witness :
    ((ProcessFIG_Type_0_Ext_0 [0xC0, 0x12, 0x34, 0x05]).isSome = true ↔
      ([0xC0, 0x12, 0x34, 0x05] : List Nat).length = 4) ∧
    ProcessFIG_Type_0_Ext_0 [0xC0, 0x12, 0x34, 0x05] =
      some { eid := EnsembleIdentifier.ProcessBuffer 0xC0 0x12
             change_flags := 0
             alarm_flag := 1
             cif_upper := 0x14
             cif_lower := 0x05
             occurance_change := 0 } :=
  ⟨(claim_C5_amended [0xC0, 0x12, 0x34, 0x05]).1,
   by
    have h := (claim_C5_amended [0xC0, 0x12, 0x34, 0x05]).2.2 (by decide)
    rw [h]
    decide⟩

/-- C6 counterexample: parsing the FIG 0/10 field [0x37, 0xC6, 0x08, 0x12,
0x34] does not produce any date-time record at all, in particular none with
MJD 59776, hours 1 and minutes 52. -/
theorem claim_C6_counterexample :
    ¬ ∃ r : Fig0Ext10, ProcessFIG_Type_0_Ext_10 [0x37, 0xC6, 0x08, 0x12, 0x34] = some r ∧
      r.MJD = 59776 ∧ r.hours = 1 ∧ r.minutes = 52 := by
  rintro ⟨r, hr, -⟩
  rw [show ProcessFIG_Type_0_Ext_10 [0x37, 0xC6, 0x08, 0x12, 0x34] = none from by decide] at hr
  exact Option.noConfusion hr

/-- C6 amended: on the field bytes [0x37, 0xC6, 0x08, 0x12, 0x34] the source
computes UTC flag 1 (bit 3 of 0x08 is set), therefore requires
`nb_actual_bytes = 6` bytes, and rejects the 5-byte field, producing no
date-time values. -/
theorem claim_C6_amended :
    fig010_utc_flag 0x08 = 1 ∧
    ProcessFIG_Type_0_Ext_10 [0x37, 0xC6, 0x08, 0x12, 0x34] = none := by decide

/-- C8 counterexample: handling the access unit with au_index = 0 clears only
the AU CRC error flag; the firecode and RS error flags keep their prior
values, so they are not cleared at that point. -/
theorem claim_C8_counterexample :
    (channelStep ⟨true, true, true⟩ (.accessUnit 0)).is_firecode_error = true ∧
    (channelStep ⟨true, true, true⟩ (.accessUnit 0)).is_rs_error = true ∧
    (channelStep ⟨true, true, true⟩ (.accessUnit 0)).is_au_error = false := by decide

/-- Firecode flag stays clear along any event trace free of firecode
errors. -/
theorem channel_firecode_stable (t : List ChannelEvent) :
    ∀ s : ChannelErrorFlags, ChannelEvent.firecodeError ∉ t → s.is_firecode_error = false →
      (t.foldl channelStep s).is_firecode_error = false := by
  induction t with
  | nil => intro s _ hs; simpa using hs
  | cons e t ih =>
    intro s hmem hs
    have he : e ≠ ChannelEvent.firecodeError := fun h => hmem (by simp [h])
    have hmem' : ChannelEvent.firecodeError ∉ t := fun h => hmem (by simp [h])
    refine ih (channelStep s e) hmem' ?_
    cases e with
    | superFrameHeader => simp [channelStep]
    | accessUnit i => by_cases hi : i = 0 <;> simp [channelStep, hi, hs]
    | firecodeError => exact absurd rfl he
    | rsError => simp [channelStep, hs]
    | auCrcError => simp [channelStep, hs]

/-- RS flag stays clear along any event trace free of RS errors. -/
theorem channel_rs_stable (t : List ChannelEvent) :
    ∀ s : ChannelErrorFlags, ChannelEvent.rsError ∉ t → s.is_rs_error = false →
      (t.foldl channelStep s).is_rs_error = false := by
  induction t with
  | nil => intro s _ hs; simpa using hs
  | cons e t ih =>
    intro s hmem hs
    have he : e ≠ ChannelEvent.rsError := fun h => hmem (by simp [h])
    have hmem' : ChannelEvent.rsError ∉ t := fun h => hmem (by simp [h])
    refine ih (channelStep s e) hmem' ?_
    cases e with
    | superFrameHeader => simp [channelStep]
    | accessUnit i => by_cases hi : i = 0 <;> simp [channelStep, hi, hs]
    | firecodeError => simp [channelStep, hs]
    | rsError => exact absurd rfl he
    | auCrcError => simp [channelStep, hs]

/-- AU CRC flag stays clear along any event trace free of AU CRC errors. -/
theorem channel_au_stable (t : List ChannelEvent) :
    ∀ s : ChannelErrorFlags, ChannelEvent.auCrcError ∉ t → s.is_au_error = false →
      (t.foldl channelStep s).is_au_error = false := by
  induction t with
  | nil => intro s _ hs; simpa using hs
  | cons e t ih =>
    intro s hmem hs
    have he : e ≠ ChannelEvent.auCrcError := fun h => hmem (by simp [h])
    have hmem' : ChannelEvent.auCrcError ∉ t := fun h => hmem (by simp [h])
    refine ih (channelStep s e) hmem' ?_
    cases e with
    | superFrameHeader => simp [channelStep, hs]
    | accessUnit i => by_cases hi : i = 0 <;> simp [channelStep, hi, hs]
    | firecodeError => simp [channelStep, hs]
    | rsError => simp [channelStep, hs]
    | auCrcError => exact absurd rfl he

/-- C8 amended: the firecode and RS error flags are cleared when the
superframe header event is handled, and the AU CRC error flag is cleared when
the access unit with au_index = 0 is handled; from each clearing point on,
the flag is set only if the corresponding error event occurred afterwards in
the current superframe. -/
theorem claim_C8_amended (s : ChannelErrorFlags) (t : List ChannelEvent) :
    (channelStep s .superFrameHeader).is_firecode_error = false ∧
    (channelStep s .superFrameHeader).is_rs_error = false ∧
    (channelStep s (.accessUnit 0)).is_au_error = false ∧
    (ChannelEvent.firecodeError ∉ t →
      (t.foldl channelStep (channelStep s .superFrameHeader)).is_firecode_error = false) ∧
    (ChannelEvent.rsError ∉ t →
      (t.foldl channelStep (channelStep s .superFrameHeader)).is_rs_error = false) ∧
    (ChannelEvent.auCrcError ∉ t →
      (t.foldl channelStep (channelStep s (.accessUnit 0))).is_au_error = false) := by
  refine ⟨by simp [channelStep], by simp [channelStep], by simp [channelStep], ?_, ?_, ?_⟩
  · intro hmem
    exact channel_firecode_stable t _ hmem (by simp [channelStep])
  · intro hmem
    exact channel_rs_stable t _ hmem (by simp [channelStep])
  · intro hmem
    exact channel_au_stable t _ hmem (by simp [channelStep])

/-- Witness for C8 amended on a concrete superframe trace with all flags
initially set. -/
theorem claim_C8_amended_witness :
    (([ChannelEvent.accessUnit 0, ChannelEvent.accessUnit 1].foldl channelStep
        (channelStep ⟨true, true, true⟩ .superFrameHeader)).is_firecode_error = false) ∧
    (([ChannelEvent.superFrameHeader].foldl channelStep
        (channelStep ⟨true, true, true⟩ (.accessUnit 0))).is_au_error = false) :=
  ⟨(claim_C8_amended ⟨true, true, true⟩ [ChannelEvent.accessUnit 0, ChannelEvent.accessUnit 1]).2.2.2.1
      (by decide),
   (claim_C8_amended ⟨true, true, true⟩ [ChannelEvent.superFrameHeader]).2.2.2.2.2 (by decide)⟩

/-- C9: under the spec requirement that every ISA kernel computes the
identical branch-metric update, the hard bits returned by chainback are
bit-for-bit identical for every choice of kernel, on every soft input. -/
theorem claim_C9_kernel_chainback (k1 k2 : ViterbiKernel) (softLow softHigh : Int)
    (groups : List (List Int)) (endState : Nat) :
    (kernel_chainback k1 softLow softHigh groups endState).fst =
    (kernel_chainback k2 softLow softHigh groups endState).fst := by
  cases k1 <;> cases k2 <;> rfl

end DabEmbed

namespace DabEmbed

/-- C10: when the FIG scanning loop of FIC_Processor::ProcessFIG meets a
header whose 3-bit type is 3, 4 or 5 (reserved), it stops and processes none
of the remaining FIGs of the FIB; whereas a type-0 FIG whose extension is
unrecognized skips only that FIG (no handler is dispatched for it) and
continues scanning with the next FIG. -/
theorem claim_C10_fig_scan (hdr : Nat) (rest : List Nat) :
    ((hdr &&& 0b11100000) >>> 5 = 3 ∨ (hdr &&& 0b11100000) >>> 5 = 4 ∨ (hdr &&& 0b11100000) >>> 5 = 5 →
      processFIGAux (hdr :: rest) = []) ∧
    ((hdr &&& 0b11100000) >>> 5 = 0 →
      fig0_recognized (rest.headD 0 &&& 0b00011111) = false →
      2 < (hdr :: rest).length →
      (hdr &&& 0b00011111) + 1 ≤ (hdr :: rest).length - 2 →
      processFIGAux (hdr :: rest) = processFIGAux ((hdr :: rest).drop ((hdr &&& 0b00011111) + 1))) := by
  constructor
  · rintro (h | h | h) <;>
    · rw [processFIGAux]
      split_ifs <;> simp_all
  · intro h0 hunrec hlen hfit
    simp only [List.headD_eq_head?_getD] at hunrec
    rw [processFIGAux]
    rw [dif_neg (by omega : ¬ (hdr :: rest).length ≤ 2)]
    simp only [List.headD_cons]
    rw [if_neg (show ¬ hdr = 255 from fun hff => absurd (hff ▸ h0) (by decide))]
    rw [if_neg (show ¬ (hdr &&& 31) + 1 > (hdr :: rest).length - 2 from by omega)]
    rw [if_pos h0]
    rw [show ProcessFIG_Type_0 (List.drop 1 (hdr :: rest)) (hdr &&& 31) = none from by
      simp [ProcessFIG_Type_0, hunrec]]

/-- Witness for C10: a reserved type 3 FIG (header 0x62) stops the scan of a
full 30-byte payload, and a type-0 FIG with unrecognized extension 30
(header 0x01, descriptor 0x1E) is skipped with scanning continuing. -/
theorem claim_C10_fig_scan_witness :
    processFIGAux (0x62 :: List.replicate 31 0) = [] ∧
    processFIGAux (0x01 :: 0x1E :: List.replicate 30 0) =
      processFIGAux ((0x01 :: 0x1E :: List.replicate 30 0).drop 2) :=
  ⟨(claim_C10_fig_scan 0x62 (List.replicate 31 0)).1 (Or.inl (by decide)),
   by
    have h := (claim_C10_fig_scan 0x01 (0x1E :: List.replicate 30 0)).2 (by decide) (by decide)
      (by simp) (by simp)
    simpa using h⟩

end DabEmbed

namespace DabEmbed

/-- Total segment count is unchanged by AddSegment calls. -/
theorem MOT_addAll_total (f : Nat → List Nat) (l : List Nat) (m : MOT_Assembler) :
    (MOT_addAll f l m).total_segments = m.total_segments := by
  induction l generalizing m with
  | nil => rfl
  | cons a t ih => simpa [MOT_addAll, MOT_Assembler.AddSegment] using ih (m.AddSegment a (f a))

/-- Segment table after a sequence of AddSegment calls: an index added at
least once holds its segment, every other index is untouched. -/
theorem MOT_addAll_segments (f : Nat → List Nat) (l : List Nat) (m : MOT_Assembler) (i : Nat) :
    (MOT_addAll f l m).segments i = if i ∈ l then some (f i) else m.segments i := by
  induction l generalizing m with
  | nil => simp [MOT_addAll]
  | cons a t ih =>
    have hstep : MOT_addAll f (a :: t) m = MOT_addAll f t (m.AddSegment a (f a)) := rfl
    rw [hstep, ih]
    by_cases hit : i ∈ t
    · simp [hit]
    · by_cases hia : i = a
      · simp [hit, hia, MOT_Assembler.AddSegment]
      · simp [hit, hia, MOT_Assembler.AddSegment]

/-- Reconstruction only depends on the segments stored at the traversed
indices. -/
theorem MOT_getData_of_segments (g : Nat → Option (List Nat)) (f : Nat → List Nat) (l : List Nat)
    (h : ∀ i ∈ l, g i = some (f i)) :
    l.foldr (fun i acc => (g i).getD [] ++ acc) [] = l.foldr (fun i acc => f i ++ acc) [] := by
  induction l with
  | nil => rfl
  | cons a t ih =>
    simp only [List.foldr_cons]
    rw [h a (by simp), ih (fun i hi => h i (by simp [hi]))]
    rfl

/-- C7: after SetTotalSegments(n), adding the n distinct segment indices
covering [0, n) in any arrival order makes CheckComplete() true and GetData()
return the concatenation of the segments in index order, independently of the
permutation; in particular with total 3 and segments (2, "C"), (0, "A"),
(1, "B") added in that order, GetData() is "ABC" (bytes 65, 66, 67) and
CheckComplete() is true. -/
theorem claim_C7_mot_assembler (n : Nat) (f : Nat → List Nat) (idxs : List Nat)
    (hperm : idxs.Perm (List.range n)) :
    (MOT_addAll f idxs (MOT_Assembler.reset.SetTotalSegments n)).CheckComplete = true ∧
    (MOT_addAll f idxs (MOT_Assembler.reset.SetTotalSegments n)).GetData =
      (List.range n).foldr (fun i acc => f i ++ acc) [] ∧
    (MOT_addAll (fun i => [65 + i]) [2, 0, 1] (MOT_Assembler.reset.SetTotalSegments 3)).GetData =
      [65, 66, 67] ∧
    (MOT_addAll (fun i => [65 + i]) [2, 0, 1] (MOT_Assembler.reset.SetTotalSegments 3)).CheckComplete =
      true := by
  have hmem : ∀ i, i ∈ idxs ↔ i < n := by
    intro i; rw [hperm.mem_iff, List.mem_range]
  have htot : (MOT_addAll f idxs (MOT_Assembler.reset.SetTotalSegments n)).total_segments = n :=
    MOT_addAll_total f idxs _
  refine ⟨?_, ?_, by decide, by decide⟩
  · rw [MOT_Assembler.CheckComplete, htot]
    simp only [decide_eq_true_eq]
    intro i hi
    rw [MOT_addAll_segments, if_pos ((hmem i).mpr hi)]
    rfl
  · rw [MOT_Assembler.GetData, htot]
    exact MOT_getData_of_segments _ f (List.range n)
      (fun i hi => by rw [MOT_addAll_segments, if_pos ((hmem i).mpr (List.mem_range.mp hi))])

/-- Witness for C7 at the concrete scenario of the spec: total 3, segments
added in arrival order 2, 0, 1. -/
theorem claim_C7_mot_assembler_witness :
    (MOT_addAll (fun i => [65 + i]) [2, 0, 1] (MOT_Assembler.reset.SetTotalSegments 3)).CheckComplete =
      true ∧
    (MOT_addAll (fun i => [65 + i]) [2, 0, 1] (MOT_Assembler.reset.SetTotalSegments 3)).GetData =
      (List.range 3).foldr (fun i acc => [65 + i] ++ acc) [] :=
  ⟨(claim_C7_mot_assembler 3 (fun i => [65 + i]) [2, 0, 1] (by decide)).1,
   (claim_C7_mot_assembler 3 (fun i => [65 + i]) [2, 0, 1] (by decide)).2.1⟩

end DabEmbed

namespace DabEmbed

/-- Unfolding of the transmitted-symbol count by one window position. -/
theorem countTransmitted_succ (pc : List Bool) (i k : Nat) :
    countTransmitted pc i (k + 1) =
      (if pcAt pc i then 1 else 0) + countTransmitted pc (i + 1) k := rfl

/-- Step of the depuncturing loop at a position with puncture flag 0: the
neutral symbol is inserted and no input symbol is consumed. -/
theorem depunctureLoop_not_punctured (pc : List Bool) (neutral : Int) (syms : List Int)
    (k i : Nat) (hpc : ¬ pcAt pc i = true) :
    depunctureLoop pc neutral syms (k + 1) i =
      (depunctureLoop pc neutral syms k (i + 1)).map (fun p => (neutral :: p.fst, p.snd)) := by
  cases syms with
  | nil => rw [depunctureLoop.eq_2, if_neg hpc]
  | cons v rest => rw [depunctureLoop.eq_3, if_neg hpc]

/-- Closed form of the depuncturing loop whenever enough input symbols are
available: output symbol j is the input symbol number `countTransmitted j`
when its cyclic puncture flag is 1 and the neutral symbol otherwise, and the
returned count is the number of 1 flags in the window. -/
theorem depunctureLoop_spec (pc : List Bool) (neutral : Int) :
    ∀ (k i : Nat) (syms : List Int), countTransmitted pc i k ≤ syms.length →
      depunctureLoop pc neutral syms k i =
        some ((List.range k).map (fun j =>
            if pcAt pc (i + j) then syms.getD (countTransmitted pc i j) 0 else neutral),
          countTransmitted pc i k) := by
  intro k
  induction k with
  | zero => intro i syms _; simp [depunctureLoop, countTransmitted]
  | succ k ih =>
    intro i syms hlen
    rw [countTransmitted_succ] at hlen ⊢
    by_cases hpc : pcAt pc i
    · rw [if_pos hpc] at hlen ⊢
      match syms with
      | [] => simp only [List.length_nil] at hlen; omega
      | v :: rest =>
        have hlen' : countTransmitted pc (i + 1) k ≤ rest.length := by
          simp only [List.length_cons] at hlen; omega
        rw [depunctureLoop.eq_3, if_pos hpc, ih (i + 1) rest hlen']
        simp only [Option.map_some']
        refine congrArg some (Prod.ext ?_ (by simp [Nat.add_comm]))
        simp only [List.range_succ_eq_map, List.map_cons, List.map_map]
        refine congrArg₂ List.cons ?_ ?_
        · simp [hpc, countTransmitted]
        · refine List.map_congr_left (fun j _ => ?_)
          simp only [Function.comp_apply, countTransmitted_succ, if_pos hpc]
          have h1 : i + Nat.succ j = (i + 1) + j := by omega
          rw [h1]
          by_cases hj : pcAt pc (i + 1 + j)
          · simp only [hj, if_pos, Nat.add_comm 1 (countTransmitted pc (i + 1) j)]
            simp
          · simp [hj]
    · rw [if_neg hpc] at hlen ⊢
      have hlen' : countTransmitted pc (i + 1) k ≤ syms.length := by omega
      rw [depunctureLoop_not_punctured pc neutral syms k i hpc, ih (i + 1) syms hlen']
      simp only [Option.map_some']
      refine congrArg some (Prod.ext ?_ (by simp))
      simp only [List.range_succ_eq_map, List.map_cons, List.map_map]
      refine congrArg₂ List.cons ?_ ?_
      · simp [hpc, countTransmitted]
      · refine List.map_congr_left (fun j _ => ?_)
        simp only [Function.comp_apply, countTransmitted_succ, if_neg hpc]
        have h1 : i + Nat.succ j = (i + 1) + j := by omega
        rw [h1]
        simp

/-- C4: when the requested output count is a multiple of the code rate 4 and
the punctured-symbol buffer holds at least as many symbols as the cyclic
puncture code marks transmitted over the first `requested` positions, update
produces exactly `requested` depunctured symbols, consuming an input symbol
where the cyclic flag is 1 and inserting the neutral symbol (midway between
SOFT_LOW and SOFT_HIGH) where it is 0, and returns the number of 1 flags in
that window, i.e. the number of soft bits consumed. -/
theorem claim_C4_viterbi_update (softLow softHigh : Int) (punctured_symbols : List Int)
    (puncture_code : List Bool) (requested : Nat)
    (hpc : puncture_code ≠ []) (hmul : requested % 4 = 0)
    (hlen : countTransmitted puncture_code 0 requested ≤ punctured_symbols.length) :
    DAB_Viterbi_Decoder_update punctured_symbols puncture_code requested
        (soft_decision_unpunctured softLow softHigh) =
      some ((List.range requested).map (fun j =>
          if pcAt puncture_code j then punctured_symbols.getD (countTransmitted puncture_code 0 j) 0
          else soft_decision_unpunctured softLow softHigh),
        countTransmitted puncture_code 0 requested) ∧
    ((List.range requested).map (fun j =>
        if pcAt puncture_code j then punctured_symbols.getD (countTransmitted puncture_code 0 j) 0
        else soft_decision_unpunctured softLow softHigh)).length = requested := by
  constructor
  · rw [DAB_Viterbi_Decoder_update,
      depunctureLoop_spec puncture_code _ requested 0 punctured_symbols hlen]
    refine congrArg some (Prod.ext ?_ rfl)
    exact List.map_congr_left (fun j _ => by rw [Nat.zero_add])
  · simp

/-- Witness for C4 on a concrete 4-periodic puncture code, 8 requested output
symbols and 6 available input symbols. -/
theorem claim_C4_viterbi_update_witness :
    DAB_Viterbi_Decoder_update [10, 20, 30, 40, 50, 60] [true, true, false, true] 8
        (soft_decision_unpunctured (-127) 127) =
      some ((List.range 8).map (fun j =>
          if pcAt [true, true, false, true] j then
            ([10, 20, 30, 40, 50, 60] : List Int).getD (countTransmitted [true, true, false, true] 0 j) 0
          else soft_decision_unpunctured (-127) 127),
        countTransmitted [true, true, false, true] 0 8) :=
  (claim_C4_viterbi_update (-127) 127 [10, 20, 30, 40, 50, 60] [true, true, false, true] 8
    (by decide) (by decide) (by decide)).1

end DabEmbed

namespace DabEmbed

/-- Bytes below 256 are below any higher power of two. -/
theorem lt_two_pow_of_byte (b i : Nat) (hb : b < 256) (hi : 8 ≤ i) : b < 2 ^ i :=
  lt_of_lt_of_le hb (by
    calc (256 : Nat) = 2 ^ 8 := by norm_num
    _ ≤ 2 ^ i := Nat.pow_le_pow_right (by omega) hi)

/-- High bits of the big-endian byte pair (a <<< 8) ||| b come from a. -/
theorem testBit_high_byte (a b : Nat) (hb : b < 256) (i : Nat) :
    ((a <<< 8) ||| b).testBit (i + 8) = a.testBit i := by
  have hbf : b.testBit (i + 8) = false :=
    Nat.testBit_lt_two_pow (lt_two_pow_of_byte b (i + 8) hb (by omega))
  simp [Nat.testBit_or, Nat.testBit_shiftLeft, hbf]

/-- Low bits of the big-endian byte pair (a <<< 8) ||| b come from b. -/
theorem testBit_low_byte (a b : Nat) (i : Nat) (hi : i < 8) :
    ((a <<< 8) ||| b).testBit i = b.testBit i := by
  simp [Nat.testBit_or, Nat.testBit_shiftLeft, show ¬ 8 ≤ i by omega]

/-- The big-endian 16-bit word determines both of its bytes. -/
theorem lor_shift8_inj (a b c d : Nat) (hb : b < 256) (hd : d < 256)
    (h : (a <<< 8) ||| b = (c <<< 8) ||| d) : a = c ∧ b = d := by
  constructor
  · apply Nat.eq_of_testBit_eq
    intro i
    have h1 := congrArg (fun x => Nat.testBit x (i + 8)) h
    simpa [testBit_high_byte a b hb, testBit_high_byte c d hd] using h1
  · apply Nat.eq_of_testBit_eq
    intro i
    by_cases hi : i < 8
    · have h1 := congrArg (fun x => Nat.testBit x i) h
      simpa [testBit_low_byte a b i hi, testBit_low_byte c d i hi] using h1
    · rw [Nat.testBit_lt_two_pow (lt_two_pow_of_byte b i hb (by omega)),
        Nat.testBit_lt_two_pow (lt_two_pow_of_byte d i hd (by omega))]

set_option maxRecDepth 16384 in
/-- C1 counterexample: this 32-byte FIB passes the CRC-16 check of
ProcessFIBGroup (its last two bytes are the inverted CRC of its thirty 0xFF
payload bytes), yet the FIG parser dispatches no handler at all for it (the
first payload byte 0xFF is the delimiter), so no database mutation of any
kind can result; the FIG handlers of the source mutate no database anyway,
they only log. -/
theorem claim_C1_counterexample :
    fib_is_valid [0xFF, 0xFF, 0xFF, 0xFF, 0xFF, 0xFF, 0xFF, 0xFF, 0xFF, 0xFF, 0xFF, 0xFF, 0xFF, 0xFF, 0xFF, 0xFF, 0xFF, 0xFF, 0xFF, 0xFF, 0xFF, 0xFF, 0xFF, 0xFF, 0xFF, 0xFF, 0xFF, 0xFF, 0xFF, 0xFF, 0xA0, 0x42] = true ∧
    checkAndProcessFIB [0xFF, 0xFF, 0xFF, 0xFF, 0xFF, 0xFF, 0xFF, 0xFF, 0xFF, 0xFF, 0xFF, 0xFF, 0xFF, 0xFF, 0xFF, 0xFF, 0xFF, 0xFF, 0xFF, 0xFF, 0xFF, 0xFF, 0xFF, 0xFF, 0xFF, 0xFF, 0xFF, 0xFF, 0xFF, 0xFF, 0xA0, 0x42] = some [] := by
  have hfig : processFIG [0xFF, 0xFF, 0xFF, 0xFF, 0xFF, 0xFF, 0xFF, 0xFF, 0xFF, 0xFF, 0xFF, 0xFF, 0xFF, 0xFF, 0xFF, 0xFF, 0xFF, 0xFF, 0xFF, 0xFF, 0xFF, 0xFF, 0xFF, 0xFF, 0xFF, 0xFF, 0xFF, 0xFF, 0xFF, 0xFF, 0xA0, 0x42] = ([] : List FigEvent) := by
    rw [processFIG, processFIGAux, dif_neg (by decide)]
    simp
  refine ⟨by decide, ?_⟩
  rw [checkAndProcessFIB, if_pos (by decide), hfig]

/-- C1 amended: a 32-byte FIB whose CRC-16 over the first 30 bytes (poly
0x1021, init 0xFFFF, XOR-out 0xFFFF at transmission) matches its last two
bytes is handed to the FIG parser (it need not produce any handler dispatch,
let alone a database mutation); and every FIB obtained from it by altering
its last two bytes fails the CRC check and is dropped before any FIG
parsing. -/
theorem claim_C1_amended (fib : List Nat) (a b : Nat)
    (hlen : fib.length = 32) (hbytes : ∀ x ∈ fib, x < 256) (ha : a < 256) (hb : b < 256)
    (hvalid : fib_is_valid fib = true) :
    checkAndProcessFIB fib = some (processFIG fib) ∧
    (¬(a = fib.getD 30 0 ∧ b = fib.getD 31 0) →
      checkAndProcessFIB (fib.take 30 ++ [a, b]) = none) := by
  have htake : (fib.take 30).length = 30 := by rw [List.length_take]; omega
  have hv : fib_crc_rx fib = fib_crc_pred fib := by
    simpa [fib_is_valid, beq_iff_eq] using hvalid
  constructor
  · simp [checkAndProcessFIB, hvalid]
  · intro hne
    have hpred : fib_crc_pred (fib.take 30 ++ [a, b]) = fib_crc_pred fib := by
      rw [fib_crc_pred, fib_crc_pred, List.take_left' htake]
    have hga : (fib.take 30 ++ [a, b]).getD 30 0 = a := by
      rw [List.getD_append_right (fib.take 30) [a, b] 0 30 (by omega)]
      simp [htake]
    have hgb : (fib.take 30 ++ [a, b]).getD 31 0 = b := by
      rw [List.getD_append_right (fib.take 30) [a, b] 0 31 (by omega)]
      simp [htake]
    have hrx : fib_crc_rx (fib.take 30 ++ [a, b]) = ((a <<< 8) ||| b) ^^^ 0xFFFF := by
      rw [fib_crc_rx, hga, hgb]
    have h31 : fib.getD 31 0 < 256 := by
      have hm : fib.getD 31 0 ∈ fib := by
        rw [List.getD_eq_getElem fib 0 (show 31 < fib.length by omega)]
        exact List.getElem_mem _
      exact hbytes _ hm
    have hinvalid : fib_is_valid (fib.take 30 ++ [a, b]) = false := by
      rw [fib_is_valid, hrx, hpred]
      by_contra hcon
      have heq : ((a <<< 8) ||| b) ^^^ 0xFFFF = fib_crc_pred fib := by
        have h2 := Bool.not_eq_false _ |>.mp hcon
        simpa [beq_iff_eq] using h2
      rw [← hv, fib_crc_rx] at heq
      have hlor : (a <<< 8) ||| b = (fib.getD 30 0 <<< 8) ||| fib.getD 31 0 :=
        Nat.xor_left_inj.mp heq
      exact hne ⟨(lor_shift8_inj a b _ _ hb h31 hlor).1, (lor_shift8_inj a b _ _ hb h31 hlor).2⟩
    simp [checkAndProcessFIB, hinvalid]

set_option maxRecDepth 16384 in
/-- Witness for C1 amended at the concrete CRC-valid FIB of the
counterexample, with its tail bytes altered to 0x00 0x00. -/
theorem claim_C1_amended_witness :
    checkAndProcessFIB [0xFF, 0xFF, 0xFF, 0xFF, 0xFF, 0xFF, 0xFF, 0xFF, 0xFF, 0xFF, 0xFF, 0xFF, 0xFF, 0xFF, 0xFF, 0xFF, 0xFF, 0xFF, 0xFF, 0xFF, 0xFF, 0xFF, 0xFF, 0xFF, 0xFF, 0xFF, 0xFF, 0xFF, 0xFF, 0xFF, 0xA0, 0x42] =
      some (processFIG [0xFF, 0xFF, 0xFF, 0xFF, 0xFF, 0xFF, 0xFF, 0xFF, 0xFF, 0xFF, 0xFF, 0xFF, 0xFF, 0xFF, 0xFF, 0xFF, 0xFF, 0xFF, 0xFF, 0xFF, 0xFF, 0xFF, 0xFF, 0xFF, 0xFF, 0xFF, 0xFF, 0xFF, 0xFF, 0xFF, 0xA0, 0x42]) ∧
    checkAndProcessFIB (([0xFF, 0xFF, 0xFF, 0xFF, 0xFF, 0xFF, 0xFF, 0xFF, 0xFF, 0xFF, 0xFF, 0xFF, 0xFF, 0xFF, 0xFF, 0xFF, 0xFF, 0xFF, 0xFF, 0xFF, 0xFF, 0xFF, 0xFF, 0xFF, 0xFF, 0xFF, 0xFF, 0xFF, 0xFF, 0xFF, 0xA0, 0x42] : List Nat).take 30 ++ [0, 0]) = none :=
  ⟨(claim_C1_amended [0xFF, 0xFF, 0xFF, 0xFF, 0xFF, 0xFF, 0xFF, 0xFF, 0xFF, 0xFF, 0xFF, 0xFF, 0xFF, 0xFF, 0xFF, 0xFF, 0xFF, 0xFF, 0xFF, 0xFF, 0xFF, 0xFF, 0xFF, 0xFF, 0xFF, 0xFF, 0xFF, 0xFF, 0xFF, 0xFF, 0xA0, 0x42] 0 0
      (by decide) (by decide) (by decide) (by decide) (by decide)).1,
   (claim_C1_amended [0xFF, 0xFF, 0xFF, 0xFF, 0xFF, 0xFF, 0xFF, 0xFF, 0xFF, 0xFF, 0xFF, 0xFF, 0xFF, 0xFF, 0xFF, 0xFF, 0xFF, 0xFF, 0xFF, 0xFF, 0xFF, 0xFF, 0xFF, 0xFF, 0xFF, 0xFF, 0xFF, 0xFF, 0xFF, 0xFF, 0xA0, 0x42] 0 0
      (by decide) (by decide) (by decide) (by decide) (by decide)).2 (by decide)⟩

end DabEmbed

namespace DabEmbed

/-- Writing at offset 0 replaces the buffer head. -/
theorem overwriteAt_zero (X src : List Bool) :
    overwriteAt X 0 src = src ++ X.drop src.length := by
  simp [overwriteAt]

/-- Writing exactly at the end of a preserved front section. -/
theorem overwriteAt_at_append (pre post src : List Bool) :
    overwriteAt (pre ++ post) pre.length src = pre ++ src ++ post.drop src.length := by
  rw [overwriteAt, List.take_left]
  rw [← List.drop_drop src.length pre.length (pre ++ post), List.drop_left, List.append_assoc]

/-- Three back-to-back writes at matching offsets concatenate their sources
in front of the surviving tail of the original buffer. -/
theorem overwrite_chain (X a b c : List Bool) :
    overwriteAt (overwriteAt (overwriteAt X 0 a) a.length b) (a.length + b.length) c =
      a ++ (b ++ (c ++ X.drop (a.length + (b.length + c.length)))) := by
  rw [overwriteAt_zero, overwriteAt_at_append a (X.drop a.length) b, List.append_assoc,
    List.drop_drop]
  rw [show a.length + b.length = (a ++ b).length from (List.length_append a b).symm]
  rw [← List.append_assoc a b, overwriteAt_at_append (a ++ b) (X.drop (a ++ b).length) c]
  simp [List.append_assoc, Nat.add_assoc]

/-- C3: for every decoder satisfying the length discipline, ProcessFIBGroup
is exactly the pipeline the claim describes: after a reset, three decoder
calls in order (PI_16 for 21 x 128 = 2688 output symbols, PI_15 for
3 x 128 = 384, PI_X for 24 with the termination flag), the decoded bits
concatenated in call order into the bit buffer, the packed bytes XORed with
the additive scrambler sequence seeded by syncword 0xFFFF, and the result
split into three 32-byte FIBs, each validated by the CRC-16 of claim 1, the
valid ones being fed to the FIG parser. -/
theorem claim_C3_fic_pipeline {σ : Type} (O : ViterbiOracle σ) (s0 : σ) (stale : List Bool)
    (enc : List Nat) (hwf : OracleLengthWF O) :
    ProcessFIBGroup O s0 stale enc = fic_decode_claim O s0 stale enc ∧
    (ProcessFIBGroup O s0 stale enc).calls =
      [⟨.PI_16, 32, 2688, false⟩, ⟨.PI_15, 32, 384, false⟩, ⟨.PI_X, 24, 24, true⟩] := by
  refine ⟨?_, by norm_num [ProcessFIBGroup]⟩
  have hwf1 := hwf (O.reset s0) (unpack_bits (List.take 288 enc)) PunctureTableId.PI_16 32 2688 false
  simp only [ProcessFIBGroup, fic_decode_claim, fic_claim_plan, run_decode_plan,
    List.map_cons, List.map_nil, List.flatten_cons, List.flatten_nil, List.append_nil,
    List.drop_drop]
  norm_num
  generalize hp1 : O.decode (O.reset s0) (unpack_bits (List.take 288 enc))
    PunctureTableId.PI_16 32 2688 false = p1 at *
  generalize hp2 : O.decode p1.1 (List.drop p1.2.nb_encoded_bits (unpack_bits (List.take 288 enc)))
    PunctureTableId.PI_15 32 384 false = p2 at *
  have hwf2 : p2.2.bits.length = p2.2.nb_decoded_bits := by
    rw [← hp2]; exact hwf _ _ _ _ _ _
  generalize hp3 : O.decode p2.1 (List.drop (p1.2.nb_encoded_bits + p2.2.nb_encoded_bits)
    (unpack_bits (List.take 288 enc))) PunctureTableId.PI_X 24 24 true = p3 at *
  have hwf3 : p3.2.bits.length = p3.2.nb_decoded_bits := by
    rw [← hp3]; exact hwf _ _ _ _ _ _
  rw [show p1.2.nb_decoded_bits = p1.2.bits.length from hwf1.symm]
  rw [show p2.2.nb_decoded_bits = p2.2.bits.length from hwf2.symm]
  rw [overwrite_chain]
  exact ⟨rfl, fun a _ => rfl⟩

/-- Witness for C3 at the concrete stateless decoder. -/
theorem claim_C3_fic_pipeline_witness :
    OracleLengthWF null_oracle ∧
    ProcessFIBGroup null_oracle () [] [] = fic_decode_claim null_oracle () [] [] :=
  have hwf : OracleLengthWF null_oracle := by
    intro s input t tl req fl
    simp [null_oracle]
  ⟨hwf, (claim_C3_fic_pipeline null_oracle () [] [] hwf).1⟩

end DabEmbed
